import Mathlib

/-!
Verification development for the visualization utilities of this repository
(`src/viz_utils.py`).  The Python functions are shallowly embedded:

* `plot_trajs_and_points` is modelled as a pure function from its arguments to
  the list of drawing commands issued on the matplotlib axis, together with an
  optional error (the Python exception message) when the call raises.  List
  indexing is modelled by `List.get?` (an out-of-range access raises
  `IndexError: list index out of range`), and the `assert` statements at the
  top of the function are modelled in source order.
* `mask_to_img` is modelled over mask records (`Ann`, mirroring the
  segmentation-model output records with an `area` and a boolean
  `segmentation` grid) and an explicit stream of the random colors drawn by
  `np.random.random(3)` — one color per mask, consumed in sorted order.
  `sorted(masks, key=..., reverse=True)` is modelled by the stable Mathlib
  `List.insertionSort` with the descending-area relation; `cv2.resize` and
  `np.resize` are modelled on shape-carrying arrays (`Arr3`), `np.resize`
  with the exact NumPy semantics: the row-major flattened data is reused,
  cycled modulo the original size, to fill the new shape.
* `generate_masks` is modelled together with the module-level name
  environment of `viz_utils.py` (its imports and top-level definitions),
  because its body references a helper `to_numpy` that this environment does
  not contain; evaluating the body therefore raises a `NameError` before the
  segmentation model is consulted.

Scalars are embedded as `ℚ` (exact stand-in for Python floats; no claim here
depends on floating-point rounding).
-/

/-! ### Colors and module-level constants (`viz_utils.py`, lines 9–14) -/

/-- An RGB(A) color vector, modelling the `np.array([...])` color constants
and the rows drawn by `np.random.random(3)`. -/
abbrev Color := List ℚ

def RED : Color := [1, 0, 0]

def GREEN : Color := [0, 1, 0]

def BLUE : Color := [0, 0, 1]

def CYAN : Color := [0, 1, 1]

def YELLOW : Color := [1, 1, 0]

def MAGENTA : Color := [1, 0, 1]

/-- Elementwise scalar multiplication of a color vector, modelling the NumPy
`array * scalar` broadcast (used at `traj_colors[i] * 0.5`). -/
def smul (q : ℚ) (c : Color) : Color := c.map (fun v => q * v)

/-! ### Two-dimensional numpy arrays for trajectories -/

/-- A 2-D numpy array of shape `(rows.length, dim)`: one row per time step,
`dim` components per point (2 without yaw, 4 with yaw). -/
structure NPMat where
  dim : Nat
  rows : List (List ℚ)

/-- Column extraction `traj[:, j]`. -/
def col (j : Nat) (m : NPMat) : List ℚ := m.rows.map (fun r => r.getD j 0)

/-- Python slicing `l[::q]` for a positive stride `q`: the elements whose
index is a multiple of `q`. -/
def strided (q : Nat) (l : List α) : List α :=
  (List.range l.length).filterMap (fun i => if i % q = 0 then l.get? i else none)

/-! ### The drawing-command trace of `plot_trajs_and_points` -/

/-- One drawing call issued on the matplotlib axis `ax`. -/
inductive Cmd where
  /-- The call `ax.plot(traj[:,0], traj[:,1], color=..., [label=...,] alpha=..., marker="o", linestyle="-")`. -/
  | plotTraj (xs ys : List ℚ) (color : Color) (label : Option String) (alpha : ℚ)
  /-- The call `ax.quiver(xs, ys, us, vs, color=..., scale=1.0)`. -/
  | quiver (xs ys us vs : List ℚ) (color : Color)
  /-- The call `ax.plot(pt[0], pt[1], color=..., alpha=..., marker="o", markersize=7.0, [label=...,] linestyle="-")`. -/
  | plotPoint (x y : ℚ) (color : Color) (markersize : ℚ) (label : Option String) (alpha : ℚ)
  /-- the bare `ax.legend()` call. -/
  | legendSimple
  /-- The call `ax.legend(bbox_to_anchor=(ax_, ay), loc=loc, ncol=ncol)`. -/
  | legendBelow (ax_ ay : ℚ) (loc : String) (ncol : Nat)
  /-- The call `ax.set_aspect(mode, adjustable)`. -/
  | setAspect (mode adjustable : String)
deriving DecidableEq

/-- The arguments of `plot_trajs_and_points`, with the Python default values
(the axis itself carries no data and is omitted; `frame_dir` is unused by the
function body). -/
structure PlotArgs where
  list_trajs : List NPMat
  list_points : List (List ℚ)
  traj_colors : List Color := [CYAN, MAGENTA]
  point_colors : List Color := [RED, GREEN]
  traj_labels : Option (List String) := some ["prediction", "ground truth"]
  point_labels : Option (List String) := some ["robot", "goal"]
  traj_alphas : Option (List ℚ) := none
  point_alphas : Option (List ℚ) := none
  quiver_freq : Int := 1
  default_coloring : Bool := true

/-- The message of a Python `IndexError` raised by an out-of-range list
index. -/
def indexErrMsg : String := "IndexError: list index out of range"

/-- Python list indexing `l[i]` (for a nonnegative index): raises `IndexError`
when out of range. -/
def pyIdx (l : List α) (i : Nat) : Except String α :=
  match l.get? i with
  | some x => Except.ok x
  | none => Except.error indexErrMsg

/-- Truth value of `labels is None or n == len(labels)` (the label-length
part of the label asserts). -/
def labelsLenOk (n : Nat) (o : Option (List String)) : Bool :=
  match o with
  | none => true
  | some ls => n == ls.length

/-- The four `assert` statements at the top of `plot_trajs_and_points`, in
source order: the message of the first failing assertion, or `none` when all
pass. -/
def assertsFail (a : PlotArgs) : Option String :=
  if a.list_trajs.length ≤ a.traj_colors.length ∨ a.default_coloring = true then
    if a.list_points.length ≤ a.point_colors.length then
      if labelsLenOk a.list_trajs.length a.traj_labels = true ∨ a.default_coloring = true then
        if labelsLenOk a.list_points.length a.point_labels = true then none
        else some "Not enough labels for points"
      else some "Not enough labels for trajectories"
    else some "Not enough colors for points"
  else some "Not enough colors for trajectories"

/-- The expression `traj_alphas[i] if traj_alphas is not None else 1.0`. -/
def trajAlpha (a : PlotArgs) (i : Nat) : Except String ℚ :=
  match a.traj_alphas with
  | none => Except.ok 1
  | some al => pyIdx al i

/-- The expression `point_alphas[i] if point_alphas is not None else 1.0`. -/
def pointAlpha (a : PlotArgs) (i : Nat) : Except String ℚ :=
  match a.point_alphas with
  | none => Except.ok 1
  | some al => pyIdx al i

/-- One iteration of the trajectory loop (`for i, traj in enumerate(list_trajs)`),
as the commands it issues or the exception it raises.  Argument expressions
are evaluated in Python order: `traj_colors[i]`, then (in the labelled
branch) `traj_labels[i]`, then the alpha expression; the quiver block runs
after the `ax.plot` call when `traj.shape[1] > 2 and quiver_freq > 0`.
The missing repository helper `gen_bearings_from_waypoints` is abstracted as
the parameter `genB` (see `specBearings`). -/
def drawTrajStep (genB : List (List ℚ) → List (ℚ × ℚ)) (a : PlotArgs) (i : Nat)
    (t : NPMat) : Except String (List Cmd) :=
  match pyIdx a.traj_colors i with
  | Except.error e => Except.error e
  | Except.ok c =>
    match (match a.traj_labels with
      | none =>
        (trajAlpha a i).map (fun al => Cmd.plotTraj (col 0 t) (col 1 t) c none al)
      | some ls =>
        match pyIdx ls i with
        | Except.error e => Except.error e
        | Except.ok lb =>
          (trajAlpha a i).map (fun al => Cmd.plotTraj (col 0 t) (col 1 t) c (some lb) al)) with
    | Except.error e => Except.error e
    | Except.ok plotCmd =>
      if t.dim > 2 ∧ a.quiver_freq > 0 then
        let q := a.quiver_freq.toNat
        let bs := genB t.rows
        Except.ok [plotCmd,
          Cmd.quiver (strided q (col 0 t)) (strided q (col 1 t))
            (strided q (bs.map Prod.fst)) (strided q (bs.map Prod.snd))
            (smul (1/2) c)]
      else Except.ok [plotCmd]

/-- The trajectory loop: commands accumulated so far, plus the exception that
interrupted the loop, if any. -/
def drawTrajsFrom (genB : List (List ℚ) → List (ℚ × ℚ)) (a : PlotArgs) :
    Nat → List NPMat → List Cmd → List Cmd × Option String
  | _, [], acc => (acc, none)
  | i, t :: ts, acc =>
    match drawTrajStep genB a i t with
    | Except.error e => (acc, some e)
    | Except.ok cs => drawTrajsFrom genB a (i + 1) ts (acc ++ cs)

/-- One iteration of the point loop (`for i, pt in enumerate(list_points)`).
Evaluation order: `pt[0]`, `pt[1]`, `point_colors[i]`, the alpha expression,
then (in the labelled branch) `point_labels[i]`. -/
def drawPointStep (a : PlotArgs) (i : Nat) (p : List ℚ) : Except String Cmd :=
  match pyIdx p 0 with
  | Except.error e => Except.error e
  | Except.ok x =>
    match pyIdx p 1 with
    | Except.error e => Except.error e
    | Except.ok y =>
      match pyIdx a.point_colors i with
      | Except.error e => Except.error e
      | Except.ok c =>
        match a.point_labels with
        | none => (pointAlpha a i).map (fun al => Cmd.plotPoint x y c 7 none al)
        | some ls =>
          match pointAlpha a i with
          | Except.error e => Except.error e
          | Except.ok al =>
            (pyIdx ls i).map (fun lb => Cmd.plotPoint x y c 7 (some lb) al)

/-- The point loop. -/
def drawPointsFrom (a : PlotArgs) :
    Nat → List (List ℚ) → List Cmd → List Cmd × Option String
  | _, [], acc => (acc, none)
  | i, p :: ps, acc =>
    match drawPointStep a i p with
    | Except.error e => (acc, some e)
    | Except.ok c => drawPointsFrom a (i + 1) ps (acc ++ [c])

/-- The legend block: `if traj_labels is not None or point_labels is not None:
ax.legend(); ax.legend(bbox_to_anchor=(0.0, -0.5), loc="upper left", ncol=2)`. -/
def legendCmds (a : PlotArgs) : List Cmd :=
  if a.traj_labels ≠ none ∨ a.point_labels ≠ none then
    [Cmd.legendSimple, Cmd.legendBelow 0 (-(1/2)) "upper left" 2]
  else []

/-- The whole of `plot_trajs_and_points`: the drawing commands issued on the
axis before the call returned or raised, and the exception message when it
raised.  The asserts run first, then the trajectory loop, the point loop,
the legend block and the final `ax.set_aspect("equal", "box")`. -/
def plot_trajs_and_points (genB : List (List ℚ) → List (ℚ × ℚ)) (a : PlotArgs) :
    List Cmd × Option String :=
  match assertsFail a with
  | some m => ([], some m)
  | none =>
    match drawTrajsFrom genB a 0 a.list_trajs [] with
    | (cs, some e) => (cs, some e)
    | (cs, none) =>
      match drawPointsFrom a 0 a.list_points cs with
      | (cs2, some e) => (cs2, some e)
      | (cs2, none) =>
        (cs2 ++ legendCmds a ++ [Cmd.setAspect "equal" "box"], none)

/-- Modelled from the spec: the repository helper `gen_bearings_from_waypoints`
(referenced at line 82 of `viz_utils.py` but not part of `src/`) derives a
unit heading vector per waypoint from the two heading-encoding components of
a 4-component waypoint.  Claims about the renderer do not depend on the
bearing values, so the theorems below quantify over the `genB` parameter;
this definition is the concrete instance used by witnesses (heading
components taken verbatim; normalization does not affect any claim). -/
def specBearings (rows : List (List ℚ)) : List (ℚ × ℚ) :=
  rows.map (fun r => (r.getD 2 0, r.getD 3 0))

/-! ### Mask records and the painting loop of `mask_to_img` -/

/-- A segmentation-model output record, as consumed by `mask_to_img`: a
scalar `area` (a pixel count) and a boolean segmentation grid of shape
`(h, w)` (`seg y x = true` where the mask covers the pixel). -/
structure Ann where
  area : Nat
  h : Nat
  w : Nat
  seg : Nat → Nat → Bool

/-- The descending-area comparison used by
`sorted(masks, key=area, reverse=True)` (descending by the area key). -/
def annGE (a b : Ann) : Prop := b.area ≤ a.area

instance : DecidableRel annGE := fun a b => inferInstanceAs (Decidable (b.area ≤ a.area))

instance : IsTotal Ann annGE := ⟨fun a b => Nat.le_total b.area a.area⟩

instance : IsTrans Ann annGE := ⟨fun _ _ _ hab hbc => Nat.le_trans hbc hab⟩

/-- Model of `sorted(masks, key=area, reverse=True)`: the stable Python
descending sort by area, modelled by stable insertion sort with `annGE`. -/
def sortAnns (l : List Ann) : List Ann := List.insertionSort annGE l

/-- The white canvas `np.ones((h, w, 3))`, as the color of every pixel. -/
def whitePixel : Color := [1, 1, 1]

/-- One assignment `mask_img[m] = color`: every pixel where the grid of the
mask is true takes the new color, all others keep their previous color. -/
def paintOne (p : Ann × Color) (f : Nat → Nat → Color) : Nat → Nat → Color :=
  fun y x => if p.1.seg y x then p.2 else f y x

/-- The painting loop `for ann in sorted_anns: mask_img[m] = np.random.random(3)`,
with the stream of random colors made explicit (the i-th sorted mask is
painted with the i-th color of the stream). -/
def paintList (ps : List (Ann × Color)) (base : Nat → Nat → Color) :
    Nat → Nat → Color :=
  ps.foldl (fun f p => paintOne p f) base

/-- The canvas of `mask_to_img` after the painting loop (lines 132–136):
white, then each sorted mask painted with its fresh random color in
descending-area order. -/
def paintCanvas (masks : List Ann) (colors : List Color) : Nat → Nat → Color :=
  paintList ((sortAnns masks).zip colors) (fun _ _ => whitePixel)

/-! ### Shape-carrying arrays, `cv2.resize`, `np.resize` and the output tensor -/

/-- A 3-axis numpy array of shape `(d0, d1, d2)` with rational entries. -/
structure Arr3 where
  d0 : Nat
  d1 : Nat
  d2 : Nat
  data : Nat → Nat → Nat → ℚ

/-- The element of `a` at row-major flat index `t`. -/
def flatGet (a : Arr3) (t : Nat) : ℚ :=
  a.data (t / (a.d1 * a.d2)) ((t / a.d2) % a.d1) (t % a.d2)

/-- Model of the external `cv2.resize(img, (dw, dh))` contract: the result
has spatial shape `dh × dw` with the channel axis preserved; entries are
sampled from the source (the repository relies only on the shape, so the
exact interpolation kernel is modelled as coordinate-scaling sampling). -/
def cv2Resize (a : Arr3) (dw dh : Nat) : Arr3 :=
  { d0 := dh, d1 := dw, d2 := a.d2,
    data := fun y x ch => a.data (y * a.d0 / dh) (x * a.d1 / dw) ch }

/-- Model of `np.resize(a, (t0, t1, t2))`: the new array is filled, in row-major
order, with the row-major flattened data of `a`, cycled modulo the size of
`a` (and with zeros when `a` is empty).  This reinterprets and reuses the
flat data; it performs no axis transposition. -/
def npResize3 (a : Arr3) (t0 t1 t2 : Nat) : Arr3 :=
  { d0 := t0, d1 := t1, d2 := t2,
    data := fun i j k =>
      let total := a.d0 * a.d1 * a.d2
      if total = 0 then 0 else flatGet a ((i * t1 * t2 + j * t2 + k) % total) }

/-- A 4-axis torch tensor of shape `(n, c, h, w)` with its dtype. -/
structure Tensor4 where
  n : Nat
  c : Nat
  h : Nat
  w : Nat
  dtype : String
  data : Nat → Nat → Nat → Nat → ℚ

/-- The converter `mask_to_img(masks)`, with the stream of random colors made
explicit.
`sorted` is evaluated first (it accepts an empty list), then `masks[0]`
raises `IndexError` on an empty list; otherwise the white canvas sized by
the grid of the first mask is painted in descending-area order, resized by
`cv2.resize(mask_img, (256, 256))`, reshaped by
`np.resize(mask_img, (mask_img.shape[-1], mask_img.shape[0], mask_img.shape[1]))`,
given a leading batch axis by `unsqueeze(0)` and converted to `float32`. -/
def mask_to_img (masks : List Ann) (colors : List Color) :
    Except String Tensor4 :=
  match masks with
  | [] => Except.error indexErrMsg
  | m0 :: _ =>
    let canvas : Arr3 :=
      { d0 := m0.h, d1 := m0.w, d2 := 3,
        data := fun y x ch => (paintCanvas masks colors y x).getD ch 0 }
    let r := cv2Resize canvas 256 256
    let r2 := npResize3 r r.d2 r.d0 r.d1
    Except.ok
      { n := 1, c := r2.d0, h := r2.d1, w := r2.d2, dtype := "float32",
        data := fun b i j k => if b = 0 then r2.data i j k else 0 }

/-! ### `generate_masks` and the module name environment -/

/-- The names bound at top level of `viz_utils.py` by its import statements
(lines 1–7): `import torch`, `import cv2`, `import numpy as np`,
`import matplotlib.pyplot as plt`, `import wandb`, `import os`,
`from typing import Optional`. -/
def vizUtilsImportedNames : List String :=
  ["torch", "cv2", "np", "plt", "wandb", "os", "Optional"]

/-- The names defined at top level of `viz_utils.py` (the color constants and
the four function definitions). -/
def vizUtilsTopLevelDefs : List String :=
  ["RED", "GREEN", "BLUE", "CYAN", "YELLOW", "MAGENTA",
   "plot_trajs_and_points", "generate_masks", "mask_to_img",
   "visualize_sam_maps"]

/-- Every module-level name visible inside the functions of `viz_utils.py`. -/
def vizUtilsModuleNames : List String :=
  vizUtilsImportedNames ++ vizUtilsTopLevelDefs

/-- A 3-axis torch image tensor of shape `(c, h, w)` with rational entries. -/
structure Tensor3 where
  c : Nat
  h : Nat
  w : Nat
  data : Nat → Nat → Nat → ℚ

/-- A 3-axis numpy array of dtype `uint8`. -/
structure Arr3N where
  d0 : Nat
  d1 : Nat
  d2 : Nat
  data : Nat → Nat → Nat → Nat

/-- Truncation toward zero of a rational, as in a C float-to-integer cast. -/
def truncQ (v : ℚ) : Int := if 0 ≤ v then ⌊v⌋ else ⌈v⌉

/-- The `uint8` cast of a float value `v` (wrap-around modulo 256 after
truncation toward zero). -/
def u8 (v : ℚ) : Nat := ((truncQ v).emod 256).toNat

/-- Model of `np.moveaxis(arr, 0, -1)` on a channel-first image: the channel axis is
moved last, so the result has shape `(h, w, c)` and entry
`(y, x, ch) = arr[ch, y, x]`. -/
def moveaxisLast (t : Tensor3) : Arr3 :=
  { d0 := t.h, d1 := t.w, d2 := t.c, data := fun y x ch => t.data ch y x }

/-- The scaling and cast `(arr * 255.).astype("uint8")` applied to an
`(h, w, c)` array. -/
def scaleToU8 (a : Arr3) : Arr3N :=
  { d0 := a.d0, d1 := a.d1, d2 := a.d2,
    data := fun i j k => u8 (255 * a.data i j k) }

/-- The adapter `generate_masks(viz_obs, model)`.  Its first statement evaluates
`np.moveaxis(to_numpy(viz_obs), 0, -1)`: the free name `to_numpy` is looked
up in the module environment `env` and, when the lookup fails, a `NameError`
is raised before anything else runs.  When the lookup would succeed the body
converts the tensor (`tnp` standing for the resolved `to_numpy`, which turns
a torch tensor into the numpy array with the same values), scales it by 255,
casts to `uint8` and returns `model.generate` (the parameter `gen`) applied
to the result, with no further logic. -/
def generate_masks {α : Type} (env : List String) (tnp : Tensor3 → Tensor3)
    (gen : Arr3N → α) (x : Tensor3) : Except String α :=
  if "to_numpy" ∈ env then
    Except.ok (gen (scaleToU8 (moveaxisLast (tnp x))))
  else Except.error "NameError: name to_numpy is not defined"

/-! ### Theorems: the mask converter pipeline -/

/-- C9: called with an empty mask list, `mask_to_img` raises an uncaught
`IndexError` when `masks[0]` is read (after the harmless `sorted` call) and
returns no value; the failure is the raw indexing error, not a
domain-specific error kind. -/
theorem mask_to_img_empty_raises (colors : List Color) :
    mask_to_img [] colors = Except.error "IndexError: list index out of range" :=
  rfl

/-- C4: on any non-empty mask list, whatever the shape of the segmentation
grid of the first mask, `mask_to_img` returns a `float32` tensor of shape
`(1, 3, 256, 256)` — a singleton batch axis, the channel count, and spatial
extent exactly 256 by 256. -/
theorem mask_to_img_output_shape (masks : List Ann) (colors : List Color)
    (hne : masks ≠ []) :
    ∃ t : Tensor4, mask_to_img masks colors = Except.ok t ∧
      t.n = 1 ∧ t.c = 3 ∧ t.h = 256 ∧ t.w = 256 ∧ t.dtype = "float32" := by
  match masks, hne with
  | m0 :: rest, _ => exact ⟨_, rfl, rfl, rfl, rfl, rfl, rfl⟩

/-- Witness for `mask_to_img_output_shape`: a concrete one-element mask list
with a 5 × 7 grid. -/
theorem mask_to_img_output_shape_witness :
    ([⟨1, 5, 7, fun _ _ => false⟩] : List Ann) ≠ [] ∧
      ∃ t : Tensor4,
        mask_to_img [⟨1, 5, 7, fun _ _ => false⟩] [] = Except.ok t ∧
          t.n = 1 ∧ t.c = 3 ∧ t.h = 256 ∧ t.w = 256 ∧ t.dtype = "float32" :=
  ⟨List.cons_ne_nil _ _,
    mask_to_img_output_shape [⟨1, 5, 7, fun _ _ => false⟩] [] (List.cons_ne_nil _ _)⟩

/-- A 256 × 256 × 3 canvas holding its own row-major flat index at every
entry: entry `(y, x, ch)` is `768*y + 3*x + ch`. -/
def reshapeProbe : Arr3 :=
  { d0 := 256, d1 := 256, d2 := 3,
    data := fun y x ch => ((768 * y + 3 * x + ch : Nat) : ℚ) }

/-- C2 (failing-input evaluation): the axis-reordering step of `mask_to_img`
is `np.resize`, a flat row-major reinterpretation, not a transpose.  On the
probe canvas, the output value at (channel 1, row 0, column 0) is the flat
element `1*256*256 = 65536` of the canvas — the canvas entry at row 85,
column 85, channel 1 — and differs from the canvas value at
(row 0, column 0, channel 1) that a channel-first reinterpretation must
produce. -/
theorem npResize_not_channel_first :
    (npResize3 reshapeProbe reshapeProbe.d2 reshapeProbe.d0 reshapeProbe.d1).data 1 0 0
        = reshapeProbe.data 85 85 1 ∧
      (npResize3 reshapeProbe reshapeProbe.d2 reshapeProbe.d0 reshapeProbe.d1).data 1 0 0
        ≠ reshapeProbe.data 0 0 1 := by
  constructor
  · decide
  · decide

/-! ### Theorems: `generate_masks` and the missing `to_numpy` helper -/

/-- C6: the helper `to_numpy` is neither imported nor defined anywhere in
`viz_utils.py`, so every call to `generate_masks` raises a `NameError` while
evaluating its first statement, whatever the tensor; the result does not
depend on the segmentation model, i.e. its `generate` method is never
invoked. -/
theorem generate_masks_name_error :
    "to_numpy" ∉ vizUtilsModuleNames ∧
      ∀ (α : Type) (tnp : Tensor3 → Tensor3) (gen : Arr3N → α) (x : Tensor3),
        generate_masks vizUtilsModuleNames tnp gen x =
            Except.error "NameError: name to_numpy is not defined" ∧
          ∀ gen' : Arr3N → α,
            generate_masks vizUtilsModuleNames tnp gen x =
              generate_masks vizUtilsModuleNames tnp gen' x := by
  refine ⟨by decide, fun α tnp gen x => ⟨?_, fun gen' => ?_⟩⟩
  · simp [generate_masks, show "to_numpy" ∉ vizUtilsModuleNames by decide]
  · simp [generate_masks, show "to_numpy" ∉ vizUtilsModuleNames by decide]

/-- A concrete normalized 3 × 2 × 2 image tensor. -/
def probeTensor : Tensor3 := { c := 3, h := 2, w := 2, data := fun _ _ _ => 0 }

/-- C5 (failing-input evaluation): in the module environment of
`viz_utils.py`, `generate_masks` on a concrete tensor raises the `to_numpy`
`NameError` instead of returning the result of the `generate` method of the model
on the converted 8-bit array: the conversion-and-forward contract is the
evident intent, and the missing `to_numpy` import is the slip that breaks
it. -/
theorem generate_masks_missing_helper :
    generate_masks vizUtilsModuleNames id (fun _ : Arr3N => (0 : Nat)) probeTensor
      = Except.error "NameError: name to_numpy is not defined" := by
  simp [generate_masks, show "to_numpy" ∉ vizUtilsModuleNames by decide]

/-! ### Theorems: the painting loop of `mask_to_img` (C1) -/

/-- Sequential overwriting resolves to the last covering write: the value of
the painted canvas at a pixel is the color of the last pair whose mask
covers the pixel (the first covering pair of the reversed list), and the
base value when no pair covers it. -/
theorem paintList_eq (y x : Nat) :
    ∀ (ps : List (Ann × Color)) (base : Nat → Nat → Color),
      paintList ps base y x =
        match ps.reverse.find? (fun p => p.1.seg y x) with
        | some p => p.2
        | none => base y x := by
  intro ps
  induction ps with
  | nil => intro base; rfl
  | cons p ps ih =>
    intro base
    show paintList ps (paintOne p base) y x = _
    rw [ih, List.reverse_cons, List.find?_append]
    cases hfind : ps.reverse.find? (fun q => q.1.seg y x) with
    | some r => rfl
    | none =>
      show paintOne p base y x = _
      unfold paintOne
      cases hc : p.1.seg y x with
      | true => simp [List.find?, hc]
      | false => simp [List.find?, hc]

/-- In a `Pairwise R` list, the first element satisfying `q` is `R`-below
every other element satisfying `q`. -/
theorem pairwise_find?_min {α : Type} {R : α → α → Prop} {q : α → Bool} :
    ∀ {l : List α}, l.Pairwise R → ∀ {a : α}, l.find? q = some a →
      ∀ b ∈ l, q b = true → b = a ∨ R a b := by
  intro l
  induction l with
  | nil => intro _ a h; simp [List.find?] at h
  | cons x l ih =>
    intro hp a hfind b hb hqb
    rcases List.pairwise_cons.mp hp with ⟨hx, hl⟩
    cases hqx : q x with
    | true =>
      rw [List.find?_cons, hqx] at hfind
      injection hfind with hax
      rcases List.mem_cons.mp hb with hbx | hbl
      · exact Or.inl (hbx.trans hax)
      · exact Or.inr (hax ▸ hx b hbl)
    | false =>
      rw [List.find?_cons, hqx] at hfind
      rcases List.mem_cons.mp hb with hbx | hbl
      · rw [hbx, hqx] at hqb; cases hqb
      · exact ih hl hfind b hbl hqb

/-- Pairwiseness transfers from a list to its `zip` with any list, through the
first components. -/
theorem pairwise_zip_left {α β : Type} {R : α → α → Prop} :
    ∀ {l : List α} (l' : List β), l.Pairwise R →
      (l.zip l').Pairwise (fun p q => R p.1 q.1) := by
  intro l
  induction l with
  | nil => intro l' _; simp
  | cons a l ih =>
    intro l' hp
    cases l' with
    | nil => simp
    | cons b l' =>
      rcases List.pairwise_cons.mp hp with ⟨ha, hl⟩
      refine List.pairwise_cons.mpr ⟨?_, ih l' hl⟩
      intro p hp'
      exact ha p.1 (List.of_mem_zip hp').1

/-- An element of a list no longer than a second list pairs with some
element of the second list in their `zip`. -/
theorem mem_zip_of_mem_left {α β : Type} :
    ∀ {l : List α} {l' : List β} {a : α}, a ∈ l → l.length ≤ l'.length →
      ∃ b, (a, b) ∈ l.zip l' := by
  intro l
  induction l with
  | nil => intro l' a h; cases h
  | cons x l ih =>
    intro l' a ha hlen
    cases l' with
    | nil => simp at hlen
    | cons y l' =>
      rcases List.mem_cons.mp ha with hax | hal
      · exact ⟨y, hax ▸ List.mem_cons_self _ _⟩
      · rcases ih hal (Nat.le_of_succ_le_succ hlen) with ⟨b, hb⟩
        exact ⟨b, List.mem_cons_of_mem _ hb⟩

/-- Zipping only consumes a prefix of the second list. -/
theorem zip_take_length {α β : Type} :
    ∀ (l : List α) (l' : List β), l.zip l' = l.zip (l'.take l.length) := by
  intro l
  induction l with
  | nil => intro l'; rfl
  | cons x l ih =>
    intro l'
    cases l' with
    | nil => rfl
    | cons y l' => simpa [List.zip_cons_cons] using ih l'

/-- C1: after the painting loop of `mask_to_img`, with the stream of fresh
random colors made explicit (one color per mask, drawn per loop iteration,
`masks.length` of them consumed): a pixel covered by no mask keeps the white
canvas value; a pixel covered by some mask shows the color assigned to a
covering mask of smallest area among the masks covering it (masks are
painted in descending-area order, so later, smaller masks overwrite); and
every pixel is either white or one of the first `masks.length` colors of the
stream, so the image holds at most `masks.length` distinct non-background
colors. -/
theorem paintCanvas_smallest_area_wins (masks : List Ann) (colors : List Color)
    (hlen : masks.length ≤ colors.length) (y x : Nat) :
    ((∀ m ∈ masks, m.seg y x = false) → paintCanvas masks colors y x = whitePixel) ∧
      ((∃ m ∈ masks, m.seg y x = true) →
        ∃ p ∈ (sortAnns masks).zip colors, p.1.seg y x = true ∧
          (∀ m' ∈ masks, m'.seg y x = true → p.1.area ≤ m'.area) ∧
          paintCanvas masks colors y x = p.2) ∧
      (paintCanvas masks colors y x = whitePixel ∨
        paintCanvas masks colors y x ∈ colors.take masks.length) := by
  have hperm : (sortAnns masks).Perm masks := List.perm_insertionSort annGE masks
  have hsorted : (sortAnns masks).Pairwise annGE := List.sorted_insertionSort annGE masks
  have hlens : (sortAnns masks).length = masks.length := List.length_insertionSort annGE masks
  have hpz : ((sortAnns masks).zip colors).Pairwise (fun p q => annGE p.1 q.1) :=
    pairwise_zip_left colors hsorted
  have key := paintList_eq y x ((sortAnns masks).zip colors) (fun _ _ => whitePixel)
  have hmemz : ∀ p : Ann × Color, p ∈ (sortAnns masks).zip colors → p.1 ∈ masks := by
    intro p hp
    exact hperm.mem_iff.mp (List.of_mem_zip hp).1
  refine ⟨?_, ?_, ?_⟩
  · intro hnone
    have hfind : ((sortAnns masks).zip colors).reverse.find? (fun p => p.1.seg y x) = none := by
      rw [List.find?_eq_none]
      intro p hp
      rw [hnone p.1 (hmemz p (List.mem_reverse.mp hp))]
      simp
    show paintCanvas masks colors y x = whitePixel
    unfold paintCanvas
    rw [key, hfind]
  · rintro ⟨m, hmem, hseg⟩
    have hmem' : m ∈ sortAnns masks := hperm.mem_iff.mpr hmem
    rcases mem_zip_of_mem_left hmem' (hlens ▸ hlen) with ⟨c', hc'⟩
    cases hfind : ((sortAnns masks).zip colors).reverse.find? (fun p => p.1.seg y x) with
    | none =>
      exfalso
      have := List.find?_eq_none.mp hfind (m, c') (List.mem_reverse.mpr hc')
      simp [hseg] at this
    | some p =>
      have hprev : p ∈ ((sortAnns masks).zip colors).reverse :=
        List.mem_of_find?_eq_some hfind
      have hpmem : p ∈ (sortAnns masks).zip colors := List.mem_reverse.mp hprev
      have hpseg : p.1.seg y x = true := by
        have := List.find?_some hfind
        simpa using this
      have hrev : (((sortAnns masks).zip colors).reverse).Pairwise
          (fun p q => annGE q.1 p.1) := List.pairwise_reverse.mpr hpz
      have hmin := pairwise_find?_min hrev hfind
      refine ⟨p, hpmem, hpseg, ?_, ?_⟩
      · intro m' hm' hseg'
        have hm'' : m' ∈ sortAnns masks := hperm.mem_iff.mpr hm'
        rcases mem_zip_of_mem_left hm'' (hlens ▸ hlen) with ⟨c'', hc''⟩
        have := hmin (m', c'') (List.mem_reverse.mpr hc'') (by simpa using hseg')
        rcases this with heq | hle
        · rw [← heq]
        · exact hle
      · show paintCanvas masks colors y x = p.2
        unfold paintCanvas
        rw [key, hfind]
  · cases hfind : ((sortAnns masks).zip colors).reverse.find? (fun p => p.1.seg y x) with
    | none =>
      left
      show paintCanvas masks colors y x = whitePixel
      unfold paintCanvas
      rw [key, hfind]
    | some p =>
      right
      have hprev : p ∈ ((sortAnns masks).zip colors).reverse :=
        List.mem_of_find?_eq_some hfind
      have hpmem : p ∈ (sortAnns masks).zip colors := List.mem_reverse.mp hprev
      rw [zip_take_length] at hpmem
      have hp2 : p.2 ∈ colors.take masks.length := by
        have := (List.of_mem_zip hpmem).2
        rwa [hlens] at this
      have hval : paintCanvas masks colors y x = p.2 := by
        unfold paintCanvas
        rw [key, hfind]
      rw [hval]
      exact hp2

/-- A concrete mask covering only pixel (0, 0) of a 2 × 2 grid. -/
def probeMask : Ann := { area := 1, h := 2, w := 2, seg := fun y x => y == 0 && x == 0 }

/-- Witness for `paintCanvas_smallest_area_wins`: one concrete mask and one
concrete random color at pixel (0, 0). -/
theorem paintCanvas_smallest_area_wins_witness :
    ([probeMask] : List Ann).length ≤ ([[1/3, 1/2, 1/4]] : List Color).length ∧
      (((∀ m ∈ [probeMask], m.seg 0 0 = false) →
          paintCanvas [probeMask] [[1/3, 1/2, 1/4]] 0 0 = whitePixel) ∧
        ((∃ m ∈ [probeMask], m.seg 0 0 = true) →
          ∃ p ∈ (sortAnns [probeMask]).zip [[1/3, 1/2, 1/4]], p.1.seg 0 0 = true ∧
            (∀ m' ∈ [probeMask], m'.seg 0 0 = true → p.1.area ≤ m'.area) ∧
            paintCanvas [probeMask] [[1/3, 1/2, 1/4]] 0 0 = p.2) ∧
        (paintCanvas [probeMask] [[1/3, 1/2, 1/4]] 0 0 = whitePixel ∨
          paintCanvas [probeMask] [[1/3, 1/2, 1/4]] 0 0 ∈
            ([[1/3, 1/2, 1/4]] : List Color).take ([probeMask] : List Ann).length)) :=
  ⟨Nat.le_refl 1, paintCanvas_smallest_area_wins [probeMask] [[1/3, 1/2, 1/4]] (Nat.le_refl 1) 0 0⟩

/-! ### Theorems: the trajectory/point renderer -/

/-- An `Except.map` producing an error started from that error. -/
theorem except_map_error {α β : Type} {f : α → β} {x : Except String α} {e : String}
    (h : x.map f = Except.error e) : x = Except.error e := by
  cases x with
  | error e' => simpa [Except.map] using h
  | ok v => simp [Except.map] at h

/-- An `Except.map` producing a value started from a value. -/
theorem except_map_ok {α β : Type} {f : α → β} {x : Except String α} {b : β}
    (h : x.map f = Except.ok b) : ∃ v, x = Except.ok v ∧ b = f v := by
  cases x with
  | error e' => simp [Except.map] at h
  | ok v => exact ⟨v, rfl, by simpa [Except.map] using h.symm⟩

/-- The only exception `pyIdx` raises is the `IndexError`. -/
theorem pyIdx_error {α : Type} {l : List α} {i : Nat} {e : String}
    (h : pyIdx l i = Except.error e) : e = indexErrMsg := by
  unfold pyIdx at h
  cases hg : l.get? i with
  | some v => rw [hg] at h; cases h
  | none => rw [hg] at h; cases h; rfl

/-- The only exception the trajectory alpha expression raises is the
`IndexError`. -/
theorem trajAlpha_error {a : PlotArgs} {i : Nat} {e : String}
    (h : trajAlpha a i = Except.error e) : e = indexErrMsg := by
  unfold trajAlpha at h
  cases hA : a.traj_alphas with
  | none => rw [hA] at h; cases h
  | some al => rw [hA] at h; exact pyIdx_error h

/-- The only exception the point alpha expression raises is the
`IndexError`. -/
theorem pointAlpha_error {a : PlotArgs} {i : Nat} {e : String}
    (h : pointAlpha a i = Except.error e) : e = indexErrMsg := by
  unfold pointAlpha at h
  cases hA : a.point_alphas with
  | none => rw [hA] at h; cases h
  | some al => rw [hA] at h; exact pyIdx_error h

/-- Every exception a trajectory-loop iteration raises is an `IndexError`. -/
theorem drawTrajStep_error {genB : List (List ℚ) → List (ℚ × ℚ)} {a : PlotArgs}
    {i : Nat} {t : NPMat} {e : String}
    (h : drawTrajStep genB a i t = Except.error e) : e = indexErrMsg := by
  unfold drawTrajStep at h
  cases hc : pyIdx a.traj_colors i with
  | error e' =>
    rw [hc] at h
    cases h
    exact pyIdx_error hc
  | ok c =>
    rw [hc] at h
    dsimp only at h
    cases hl : a.traj_labels with
    | none =>
      rw [hl] at h
      dsimp only at h
      cases hA : (trajAlpha a i).map
          (fun al => Cmd.plotTraj (col 0 t) (col 1 t) c none al) with
      | error e' =>
        rw [hA] at h
        cases h
        exact trajAlpha_error (except_map_error hA)
      | ok v =>
        rw [hA] at h
        dsimp only at h
        split at h <;> cases h
    | some ls =>
      rw [hl] at h
      dsimp only at h
      cases hlb : pyIdx ls i with
      | error e' =>
        rw [hlb] at h
        cases h
        exact pyIdx_error hlb
      | ok lb =>
        rw [hlb] at h
        dsimp only at h
        cases hA : (trajAlpha a i).map
            (fun al => Cmd.plotTraj (col 0 t) (col 1 t) c (some lb) al) with
        | error e' =>
          rw [hA] at h
          cases h
          exact trajAlpha_error (except_map_error hA)
        | ok v =>
          rw [hA] at h
          dsimp only at h
          split at h <;> cases h

/-- Every exception a point-loop iteration raises is an `IndexError`. -/
theorem drawPointStep_error {a : PlotArgs} {i : Nat} {p : List ℚ} {e : String}
    (h : drawPointStep a i p = Except.error e) : e = indexErrMsg := by
  unfold drawPointStep at h
  cases h0 : pyIdx p 0 with
  | error e' => rw [h0] at h; cases h; exact pyIdx_error h0
  | ok x =>
    rw [h0] at h
    dsimp only at h
    cases h1 : pyIdx p 1 with
    | error e' => rw [h1] at h; cases h; exact pyIdx_error h1
    | ok y =>
      rw [h1] at h
      dsimp only at h
      cases hc : pyIdx a.point_colors i with
      | error e' => rw [hc] at h; cases h; exact pyIdx_error hc
      | ok c =>
        rw [hc] at h
        dsimp only at h
        cases hl : a.point_labels with
        | none =>
          rw [hl] at h
          dsimp only at h
          exact pointAlpha_error (except_map_error h)
        | some ls =>
          rw [hl] at h
          dsimp only at h
          cases hA : pointAlpha a i with
          | error e' => rw [hA] at h; cases h; exact pointAlpha_error hA
          | ok al =>
            rw [hA] at h
            dsimp only at h
            exact pyIdx_error (except_map_error h)

/-- Every exception that interrupts the trajectory loop is an `IndexError`. -/
theorem drawTrajsFrom_error {genB : List (List ℚ) → List (ℚ × ℚ)} {a : PlotArgs} :
    ∀ {ts : List NPMat} {i : Nat} {acc cs : List Cmd} {e : String},
      drawTrajsFrom genB a i ts acc = (cs, some e) → e = indexErrMsg := by
  intro ts
  induction ts with
  | nil => intro i acc cs e h; cases h
  | cons t ts ih =>
    intro i acc cs e h
    unfold drawTrajsFrom at h
    cases hs : drawTrajStep genB a i t with
    | error e' =>
      rw [hs] at h
      cases h
      exact drawTrajStep_error hs
    | ok cs' =>
      rw [hs] at h
      exact ih h

/-- Every exception that interrupts the point loop is an `IndexError`. -/
theorem drawPointsFrom_error {a : PlotArgs} :
    ∀ {ps : List (List ℚ)} {i : Nat} {acc cs : List Cmd} {e : String},
      drawPointsFrom a i ps acc = (cs, some e) → e = indexErrMsg := by
  intro ps
  induction ps with
  | nil => intro i acc cs e h; cases h
  | cons p ps ih =>
    intro i acc cs e h
    unfold drawPointsFrom at h
    cases hs : drawPointStep a i p with
    | error e' =>
      rw [hs] at h
      cases h
      exact drawPointStep_error hs
    | ok c =>
      rw [hs] at h
      exact ih h

/-- The four assertion messages of `plot_trajs_and_points`. -/
def assertMsgs : List String :=
  ["Not enough colors for trajectories", "Not enough colors for points",
   "Not enough labels for trajectories", "Not enough labels for points"]

/-- The exact disjunction of precondition violations claimed to trigger an
assertion: too many trajectories for the colors without default coloring,
too many points for the point colors, a supplied trajectory label list of
the wrong length without default coloring, or a supplied point label list of
the wrong length. -/
def assertViolation (a : PlotArgs) : Prop :=
  (a.traj_colors.length < a.list_trajs.length ∧ a.default_coloring = false) ∨
    a.point_colors.length < a.list_points.length ∨
    (∃ ls, a.traj_labels = some ls ∧ ls.length ≠ a.list_trajs.length ∧
      a.default_coloring = false) ∨
    (∃ ls, a.point_labels = some ls ∧ ls.length ≠ a.list_points.length)

/-- Unfolding of the label-length check. -/
theorem labelsLenOk_iff {n : Nat} {o : Option (List String)} :
    labelsLenOk n o = true ↔ ∀ ls, o = some ls → n = ls.length := by
  cases o <;> simp [labelsLenOk]

/-- Decomposition of the assert cascade: either all asserts pass and no
violation holds, or the first failing assert yields one of the four
messages and a violation holds. -/
theorem assertsFail_spec (a : PlotArgs) :
    (assertsFail a = none ∧ ¬ assertViolation a) ∨
      (∃ m, assertsFail a = some m ∧ m ∈ assertMsgs ∧ assertViolation a) := by
  unfold assertsFail
  split_ifs with h1 h2 h3 h4
  · left
    refine ⟨rfl, ?_⟩
    rintro (⟨hlt, hdef⟩ | hlt | ⟨ls, hls, hne, hdef⟩ | ⟨ls, hls, hne⟩)
    · rcases h1 with hle | hdef'
      · omega
      · rw [hdef] at hdef'; cases hdef'
    · omega
    · rcases h3 with hok | hdef'
      · exact hne (labelsLenOk_iff.mp hok ls hls).symm
      · rw [hdef] at hdef'; cases hdef'
    · exact hne (labelsLenOk_iff.mp h4 ls hls).symm
  · right
    refine ⟨_, rfl, by simp [assertMsgs], ?_⟩
    have hv : ∃ ls, a.point_labels = some ls ∧ ls.length ≠ a.list_points.length := by
      cases hl : a.point_labels with
      | none => rw [hl] at h4; simp [labelsLenOk] at h4
      | some ls =>
        refine ⟨ls, rfl, ?_⟩
        rw [hl] at h4
        simp [labelsLenOk] at h4
        omega
    exact Or.inr (Or.inr (Or.inr hv))
  · right
    refine ⟨_, rfl, by simp [assertMsgs], ?_⟩
    rw [not_or] at h3
    rcases h3 with ⟨hok, hdef⟩
    have hdef' : a.default_coloring = false := by
      cases hD : a.default_coloring
      · rfl
      · exact absurd hD hdef
    have hv : ∃ ls, a.traj_labels = some ls ∧ ls.length ≠ a.list_trajs.length ∧
        a.default_coloring = false := by
      cases hl : a.traj_labels with
      | none => rw [hl] at hok; simp [labelsLenOk] at hok
      | some ls =>
        refine ⟨ls, rfl, ?_, hdef'⟩
        rw [hl] at hok
        simp [labelsLenOk] at hok
        omega
    exact Or.inr (Or.inr (Or.inl hv))
  · right
    refine ⟨_, rfl, by simp [assertMsgs], ?_⟩
    exact Or.inr (Or.inl (by omega))
  · right
    refine ⟨_, rfl, by simp [assertMsgs], ?_⟩
    rw [not_or] at h1
    rcases h1 with ⟨hle, hdef⟩
    have hdef' : a.default_coloring = false := by
      cases hD : a.default_coloring
      · rfl
      · exact absurd hD hdef
    exact Or.inl ⟨by omega, hdef'⟩

/-- C3: `plot_trajs_and_points` stops at the assertion stage — raising one
of the four descriptive assertion messages with no drawing command issued —
exactly when one of the claimed precondition violations holds: more
trajectories than trajectory colors without default coloring, more points
than point colors, a supplied trajectory label list whose length differs
from the trajectory count without default coloring, or a supplied point
label list whose length differs from the point count. -/
theorem plot_assertion_iff (genB : List (List ℚ) → List (ℚ × ℚ)) (a : PlotArgs) :
    (∃ m, plot_trajs_and_points genB a = ([], some m) ∧ m ∈ assertMsgs) ↔
      assertViolation a := by
  rcases assertsFail_spec a with ⟨hnone, hviol⟩ | ⟨m, hsome, hmem, hviol⟩
  · constructor
    · rintro ⟨m', hplot, hm'⟩
      exfalso
      unfold plot_trajs_and_points at hplot
      rw [hnone] at hplot
      dsimp only at hplot
      cases hT : drawTrajsFrom genB a 0 a.list_trajs [] with
      | mk cs oe =>
        rw [hT] at hplot
        cases oe with
        | some e =>
          dsimp only at hplot
          rw [Prod.mk.injEq] at hplot
          have he : m' = indexErrMsg := by
            have := drawTrajsFrom_error (e := e) hT
            rcases hplot with ⟨_, h2'⟩
            injection h2' with h2''
            rw [← h2'', this]
          rw [he] at hm'
          simp [assertMsgs, indexErrMsg] at hm'
        | none =>
          dsimp only at hplot
          cases hP : drawPointsFrom a 0 a.list_points cs with
          | mk cs2 oe2 =>
            rw [hP] at hplot
            cases oe2 with
            | some e =>
              dsimp only at hplot
              rw [Prod.mk.injEq] at hplot
              have he : m' = indexErrMsg := by
                have := drawPointsFrom_error (e := e) hP
                rcases hplot with ⟨_, h2'⟩
                injection h2' with h2''
                rw [← h2'', this]
              rw [he] at hm'
              simp [assertMsgs, indexErrMsg] at hm'
            | none =>
              dsimp only at hplot
              rw [Prod.mk.injEq] at hplot
              rcases hplot with ⟨_, h2'⟩
              cases h2'
    · intro h
      exact absurd h hviol
  · constructor
    · intro _
      exact hviol
    · intro _
      refine ⟨m, ?_, hmem⟩
      unfold plot_trajs_and_points
      rw [hsome]

/-- A successful `pyIdx` is an in-range lookup. -/
theorem pyIdx_ok {α : Type} {l : List α} {i : Nat} {v : α}
    (h : pyIdx l i = Except.ok v) : l.get? i = some v := by
  unfold pyIdx at h
  cases hg : l.get? i with
  | some w => rw [hg] at h; injection h with h'; rw [h']
  | none => rw [hg] at h; cases h

/-- C7: a trajectory-loop iteration draws a quiver (field of directional
indicators) if and only if the trajectory rows carry heading information
(4 components rather than 2) and `quiver_freq` is positive; when drawn, the
quiver samples every `quiver_freq`-th point of the trajectory columns and of
the derived bearings, and its color is the assigned color of the trajectory
scaled by one half.  2-component trajectories, or a non-positive
`quiver_freq`, produce no quiver. -/
theorem drawTrajStep_quiver_iff (genB : List (List ℚ) → List (ℚ × ℚ))
    (a : PlotArgs) (i : Nat) (t : NPMat) (hd : t.dim = 2 ∨ t.dim = 4) :
    ∀ cs, drawTrajStep genB a i t = Except.ok cs →
      ((∃ xs ys us vs c, Cmd.quiver xs ys us vs c ∈ cs) ↔
          (t.dim = 4 ∧ 0 < a.quiver_freq)) ∧
        (∀ xs ys us vs c, Cmd.quiver xs ys us vs c ∈ cs →
          ∃ c0, a.traj_colors.get? i = some c0 ∧ c = smul (1/2) c0 ∧
            xs = strided a.quiver_freq.toNat (col 0 t) ∧
            ys = strided a.quiver_freq.toNat (col 1 t) ∧
            us = strided a.quiver_freq.toNat ((genB t.rows).map Prod.fst) ∧
            vs = strided a.quiver_freq.toNat ((genB t.rows).map Prod.snd)) := by
  intro cs h
  unfold drawTrajStep at h
  cases hc : pyIdx a.traj_colors i with
  | error e => rw [hc] at h; cases h
  | ok c =>
    rw [hc] at h
    dsimp only at h
    have hpc : ∀ pc : Cmd,
        (match a.traj_labels with
          | none =>
            (trajAlpha a i).map (fun al => Cmd.plotTraj (col 0 t) (col 1 t) c none al)
          | some ls =>
            match pyIdx ls i with
            | Except.error e => Except.error e
            | Except.ok lb =>
              (trajAlpha a i).map
                (fun al => Cmd.plotTraj (col 0 t) (col 1 t) c (some lb) al)) =
          Except.ok pc →
        ∃ lb al, pc = Cmd.plotTraj (col 0 t) (col 1 t) c lb al := by
      intro pc hb
      cases hl : a.traj_labels with
      | none =>
        rw [hl] at hb
        rcases except_map_ok hb with ⟨v, _, hv⟩
        exact ⟨none, v, hv⟩
      | some ls =>
        rw [hl] at hb
        dsimp only at hb
        cases hlb : pyIdx ls i with
        | error e => rw [hlb] at hb; cases hb
        | ok lb =>
          rw [hlb] at hb
          dsimp only at hb
          rcases except_map_ok hb with ⟨v, _, hv⟩
          exact ⟨some lb, v, hv⟩
    cases hE : (match a.traj_labels with
      | none =>
        (trajAlpha a i).map (fun al => Cmd.plotTraj (col 0 t) (col 1 t) c none al)
      | some ls =>
        match pyIdx ls i with
        | Except.error e => Except.error e
        | Except.ok lb =>
          (trajAlpha a i).map
            (fun al => Cmd.plotTraj (col 0 t) (col 1 t) c (some lb) al)) with
    | error e => rw [hE] at h; cases h
    | ok pc =>
      rw [hE] at h
      dsimp only at h
      rcases hpc pc hE with ⟨lb, al, hpc'⟩
      by_cases hq : t.dim > 2 ∧ a.quiver_freq > 0
      · rw [if_pos hq] at h
        injection h with h'
        rw [← h']
        constructor
        · constructor
          · intro _
            rcases hd with hd2 | hd4
            · rw [hd2] at hq; omega
            · exact ⟨hd4, hq.2⟩
          · intro _
            exact ⟨_, _, _, _, _, List.mem_cons_of_mem _ (List.mem_cons_self _ _)⟩
        · intro xs ys us vs c' hmem
          rcases List.mem_cons.mp hmem with hm1 | hm2
          · rw [hpc'] at hm1; cases hm1
          · rcases List.mem_cons.mp hm2 with hm3 | hm4
            · injection hm3 with e1 e2 e3 e4 e5
              exact ⟨c, pyIdx_ok hc, e5, e1, e2, e3, e4⟩
            · cases hm4
      · rw [if_neg hq] at h
        injection h with h'
        rw [← h']
        constructor
        · constructor
          · rintro ⟨xs, ys, us, vs, c', hmem⟩
            rcases List.mem_cons.mp hmem with hm1 | hm2
            · rw [hpc'] at hm1; cases hm1
            · cases hm2
          · rintro ⟨hd4, hq'⟩
            exact absurd ⟨by omega, hq'⟩ hq
        · intro xs ys us vs c' hmem
          rcases List.mem_cons.mp hmem with hm1 | hm2
          · rw [hpc'] at hm1; cases hm1
          · cases hm2

/-- Whether an `Except` computation succeeded. -/
def isOkE {α : Type} (x : Except String α) : Bool :=
  match x with
  | Except.ok _ => true
  | Except.error _ => false

/-- A concrete 4-component (yaw-carrying) trajectory of two waypoints. -/
def quiverTraj : NPMat := { dim := 4, rows := [[0, 0, 1, 0], [1, 1, 0, 1]] }

/-- Arguments holding the concrete yaw-carrying trajectory, with all Python
defaults (`quiver_freq = 1`). -/
def quiverArgs : PlotArgs := { list_trajs := [quiverTraj], list_points := [] }

/-- Witness for `drawTrajStep_quiver_iff`: the concrete 4-component
trajectory under the default arguments, on which the loop iteration
succeeds. -/
theorem drawTrajStep_quiver_iff_witness :
    (quiverTraj.dim = 2 ∨ quiverTraj.dim = 4) ∧
      isOkE (drawTrajStep specBearings quiverArgs 0 quiverTraj) = true ∧
      ∀ cs, drawTrajStep specBearings quiverArgs 0 quiverTraj = Except.ok cs →
        ((∃ xs ys us vs c, Cmd.quiver xs ys us vs c ∈ cs) ↔
            (quiverTraj.dim = 4 ∧ 0 < quiverArgs.quiver_freq)) ∧
          (∀ xs ys us vs c, Cmd.quiver xs ys us vs c ∈ cs →
            ∃ c0, quiverArgs.traj_colors.get? 0 = some c0 ∧ c = smul (1/2) c0 ∧
              xs = strided quiverArgs.quiver_freq.toNat (col 0 quiverTraj) ∧
              ys = strided quiverArgs.quiver_freq.toNat (col 1 quiverTraj) ∧
              us = strided quiverArgs.quiver_freq.toNat
                ((specBearings quiverTraj.rows).map Prod.fst) ∧
              vs = strided quiverArgs.quiver_freq.toNat
                ((specBearings quiverTraj.rows).map Prod.snd)) :=
  ⟨Or.inr rfl, rfl,
    drawTrajStep_quiver_iff specBearings quiverArgs 0 quiverTraj (Or.inr rfl)⟩

/-- Commands of the two drawing loops (trajectory lines, quivers, point
markers), as opposed to the closing legend and aspect-ratio commands. -/
def isDrawCmd : Cmd → Bool
  | Cmd.plotTraj _ _ _ _ _ => true
  | Cmd.quiver _ _ _ _ _ => true
  | Cmd.plotPoint _ _ _ _ _ _ => true
  | Cmd.legendSimple => false
  | Cmd.legendBelow _ _ _ _ => false
  | Cmd.setAspect _ _ => false

/-- All trajectory-loop lookups are in range for the first `n` iterations:
at least `n` trajectory colors, and at least `n` entries in the trajectory
label and alpha lists when those are supplied. -/
def trajLookupsOk (a : PlotArgs) (n : Nat) : Bool :=
  (decide (n ≤ a.traj_colors.length) &&
    (match a.traj_labels with
      | none => true
      | some ls => decide (n ≤ ls.length))) &&
  (match a.traj_alphas with
    | none => true
    | some al => decide (n ≤ al.length))

/-- All point-loop lookups are in range for the first `n` iterations. -/
def pointLookupsOk (a : PlotArgs) (n : Nat) : Bool :=
  (decide (n ≤ a.point_colors.length) &&
    (match a.point_labels with
      | none => true
      | some ls => decide (n ≤ ls.length))) &&
  (match a.point_alphas with
    | none => true
    | some al => decide (n ≤ al.length))

/-- In-range Python indexing succeeds. -/
theorem pyIdx_ok_of_lt {α : Type} {l : List α} {i : Nat} (h : i < l.length) :
    ∃ v, pyIdx l i = Except.ok v := by
  unfold pyIdx
  cases hg : l.get? i with
  | some v => exact ⟨v, rfl⟩
  | none => rw [List.get?_eq_none] at hg; omega

/-- A trajectory-loop iteration with all lookups in range succeeds and
issues only drawing commands. -/
theorem drawTrajStep_ok (genB : List (List ℚ) → List (ℚ × ℚ)) {a : PlotArgs}
    (n i : Nat) (t : NPMat) (hok : trajLookupsOk a n = true) (hi : i < n) :
    ∃ cs, drawTrajStep genB a i t = Except.ok cs ∧
      ∀ c ∈ cs, isDrawCmd c = true := by
  unfold trajLookupsOk at hok
  simp only [Bool.and_eq_true] at hok
  obtain ⟨⟨hokC, hokL⟩, hokA⟩ := hok
  obtain ⟨c, hc⟩ := pyIdx_ok_of_lt (Nat.lt_of_lt_of_le hi (of_decide_eq_true hokC))
  obtain ⟨al, hal⟩ : ∃ v, trajAlpha a i = Except.ok v := by
    unfold trajAlpha
    cases hA : a.traj_alphas with
    | none => exact ⟨1, rfl⟩
    | some alphas =>
      rw [hA] at hokA
      exact pyIdx_ok_of_lt (Nat.lt_of_lt_of_le hi (of_decide_eq_true hokA))
  unfold drawTrajStep
  rw [hc]
  dsimp only
  cases hl : a.traj_labels with
  | none =>
    rw [hal]
    dsimp only [Except.map]
    by_cases hq : t.dim > 2 ∧ a.quiver_freq > 0
    · rw [if_pos hq]
      refine ⟨_, rfl, ?_⟩
      intro cmd hcmd
      rcases List.mem_cons.mp hcmd with rfl | hcmd'
      · rfl
      · rcases List.mem_cons.mp hcmd' with rfl | hcmd''
        · rfl
        · cases hcmd''
    · rw [if_neg hq]
      refine ⟨_, rfl, ?_⟩
      intro cmd hcmd
      rcases List.mem_cons.mp hcmd with rfl | hcmd'
      · rfl
      · cases hcmd'
  | some ls =>
    rw [hl] at hokL
    obtain ⟨lb, hlb⟩ := pyIdx_ok_of_lt (Nat.lt_of_lt_of_le hi (of_decide_eq_true hokL))
    dsimp only
    rw [hlb]
    dsimp only
    rw [hal]
    dsimp only [Except.map]
    by_cases hq : t.dim > 2 ∧ a.quiver_freq > 0
    · rw [if_pos hq]
      refine ⟨_, rfl, ?_⟩
      intro cmd hcmd
      rcases List.mem_cons.mp hcmd with rfl | hcmd'
      · rfl
      · rcases List.mem_cons.mp hcmd' with rfl | hcmd''
        · rfl
        · cases hcmd''
    · rw [if_neg hq]
      refine ⟨_, rfl, ?_⟩
      intro cmd hcmd
      rcases List.mem_cons.mp hcmd with rfl | hcmd'
      · rfl
      · cases hcmd'

/-- A point-loop iteration with all lookups in range, on a point with at
least two components, succeeds with a marker command. -/
theorem drawPointStep_ok {a : PlotArgs} (n i : Nat) (p : List ℚ)
    (hok : pointLookupsOk a n = true) (hi : i < n) (hp : 2 ≤ p.length) :
    ∃ c, drawPointStep a i p = Except.ok c ∧ isDrawCmd c = true := by
  unfold pointLookupsOk at hok
  simp only [Bool.and_eq_true] at hok
  obtain ⟨⟨hokC, hokL⟩, hokA⟩ := hok
  obtain ⟨x, hx⟩ := pyIdx_ok_of_lt (l := p) (i := 0) (by omega)
  obtain ⟨y, hy⟩ := pyIdx_ok_of_lt (l := p) (i := 1) (by omega)
  obtain ⟨c, hc⟩ := pyIdx_ok_of_lt (Nat.lt_of_lt_of_le hi (of_decide_eq_true hokC))
  obtain ⟨al, hal⟩ : ∃ v, pointAlpha a i = Except.ok v := by
    unfold pointAlpha
    cases hA : a.point_alphas with
    | none => exact ⟨1, rfl⟩
    | some alphas =>
      rw [hA] at hokA
      exact pyIdx_ok_of_lt (Nat.lt_of_lt_of_le hi (of_decide_eq_true hokA))
  unfold drawPointStep
  rw [hx]
  dsimp only
  rw [hy]
  dsimp only
  rw [hc]
  dsimp only
  cases hl : a.point_labels with
  | none =>
    rw [hal]
    exact ⟨_, rfl, rfl⟩
  | some ls =>
    rw [hl] at hokL
    obtain ⟨lb, hlb⟩ := pyIdx_ok_of_lt (Nat.lt_of_lt_of_le hi (of_decide_eq_true hokL))
    dsimp only
    rw [hal]
    dsimp only
    rw [hlb]
    exact ⟨_, rfl, rfl⟩

/-- The trajectory loop runs to completion when the lookups of every iteration
are in range, appending only drawing commands. -/
theorem drawTrajsFrom_ok {genB : List (List ℚ) → List (ℚ × ℚ)} {a : PlotArgs}
    {n : Nat} (hok : trajLookupsOk a n = true) :
    ∀ (ts : List NPMat) (i : Nat) (acc : List Cmd), i + ts.length ≤ n →
      ∃ cs, drawTrajsFrom genB a i ts acc = (acc ++ cs, none) ∧
        ∀ c ∈ cs, isDrawCmd c = true := by
  intro ts
  induction ts with
  | nil =>
    intro i acc _
    exact ⟨[], by simp [drawTrajsFrom], by intro c hc; cases hc⟩
  | cons t ts ih =>
    intro i acc hle
    obtain ⟨cs0, hs, hd⟩ := drawTrajStep_ok genB n i t hok
      (by simp at hle; omega)
    obtain ⟨cs1, hrec, hd1⟩ := ih (i + 1) (acc ++ cs0) (by simp at hle ⊢; omega)
    refine ⟨cs0 ++ cs1, ?_, ?_⟩
    · unfold drawTrajsFrom
      rw [hs]
      dsimp only
      rw [hrec, List.append_assoc]
    · intro c hc
      rcases List.mem_append.mp hc with h0 | h1
      · exact hd c h0
      · exact hd1 c h1

/-- The point loop runs to completion when the lookups of every iteration are in
range and every point has at least two components. -/
theorem drawPointsFrom_ok {a : PlotArgs} {n : Nat}
    (hok : pointLookupsOk a n = true) :
    ∀ (ps : List (List ℚ)) (i : Nat) (acc : List Cmd), i + ps.length ≤ n →
      (∀ p ∈ ps, 2 ≤ p.length) →
      ∃ cs, drawPointsFrom a i ps acc = (acc ++ cs, none) ∧
        ∀ c ∈ cs, isDrawCmd c = true := by
  intro ps
  induction ps with
  | nil =>
    intro i acc _ _
    exact ⟨[], by simp [drawPointsFrom], by intro c hc; cases hc⟩
  | cons p ps ih =>
    intro i acc hle hrows
    obtain ⟨c0, hs, hd⟩ := drawPointStep_ok n i p hok
      (by simp at hle; omega) (hrows p (List.mem_cons_self _ _))
    obtain ⟨cs1, hrec, hd1⟩ := ih (i + 1) (acc ++ [c0]) (by simp at hle ⊢; omega)
      (fun q hq => hrows q (List.mem_cons_of_mem _ hq))
    refine ⟨c0 :: cs1, ?_, ?_⟩
    · unfold drawPointsFrom
      rw [hs]
      dsimp only
      rw [hrec, List.append_assoc]
      rfl
    · intro c hc
      rcases List.mem_cons.mp hc with rfl | h1
      · exact hd
      · exact hd1 c h1

/-- The documented preconditions of `plot_trajs_and_points` (style
parameters are parallel arrays for the trajectories and points, each point
is a 2-D coordinate): enough colors, labels of matching length when
supplied, alphas of matching length when supplied. -/
def wellFormedArgs (a : PlotArgs) : Bool :=
  (trajLookupsOk a a.list_trajs.length && pointLookupsOk a a.list_points.length) &&
    ((labelsLenOk a.list_trajs.length a.traj_labels &&
        labelsLenOk a.list_points.length a.point_labels) &&
      a.list_points.all (fun p => decide (2 ≤ p.length)))

/-- C8: a call whose arguments satisfy the documented preconditions raises
nothing and runs to the end: its command trace finishes with
`ax.set_aspect("equal", "box")`, and contains the below-the-plot two-column
legend exactly when a trajectory or point label list was supplied. -/
theorem plot_completes (genB : List (List ℚ) → List (ℚ × ℚ)) (a : PlotArgs)
    (h : wellFormedArgs a = true) :
    ∃ cs, plot_trajs_and_points genB a = (cs, none) ∧
      cs.getLast? = some (Cmd.setAspect "equal" "box") ∧
      ((Cmd.legendBelow 0 (-(1/2)) "upper left" 2) ∈ cs ↔
        (a.traj_labels ≠ none ∨ a.point_labels ≠ none)) := by
  unfold wellFormedArgs at h
  simp only [Bool.and_eq_true] at h
  obtain ⟨⟨hokT, hokP⟩, ⟨hlT, hlP⟩, hrows⟩ := h
  have h1 : a.list_trajs.length ≤ a.traj_colors.length := by
    unfold trajLookupsOk at hokT
    simp only [Bool.and_eq_true] at hokT
    exact of_decide_eq_true hokT.1.1
  have h2 : a.list_points.length ≤ a.point_colors.length := by
    unfold pointLookupsOk at hokP
    simp only [Bool.and_eq_true] at hokP
    exact of_decide_eq_true hokP.1.1
  have hA : assertsFail a = none := by
    unfold assertsFail
    rw [if_pos (Or.inl h1), if_pos h2, if_pos (Or.inl hlT), if_pos hlP]
  have hrows' : ∀ p ∈ a.list_points, 2 ≤ p.length := by
    intro p hp
    exact of_decide_eq_true (List.all_eq_true.mp hrows p hp)
  obtain ⟨cs1, hT, hd1⟩ :=
    drawTrajsFrom_ok hokT a.list_trajs 0 [] (by simp)
  obtain ⟨cs2, hP, hd2⟩ :=
    drawPointsFrom_ok hokP a.list_points 0 ([] ++ cs1) (by simp) hrows'
  unfold plot_trajs_and_points
  rw [hA]
  dsimp only
  rw [hT]
  dsimp only
  rw [hP]
  dsimp only
  refine ⟨_, rfl, ?_, ?_⟩
  · exact List.getLast?_concat _
  · constructor
    · intro hmem
      simp only [List.mem_append, List.mem_singleton] at hmem
      rcases hmem with (((hm0 | hm1) | hm2) | hm3) | hm4
      · cases hm0
      · have := hd1 _ hm1
        simp [isDrawCmd] at this
      · have := hd2 _ hm2
        simp [isDrawCmd] at this
      · unfold legendCmds at hm3
        by_cases hcond : a.traj_labels ≠ none ∨ a.point_labels ≠ none
        · exact hcond
        · rw [if_neg hcond] at hm3
          cases hm3
      · cases hm4
    · intro hcond
      have hleg : legendCmds a =
          [Cmd.legendSimple, Cmd.legendBelow 0 (-(1/2)) "upper left" 2] := by
        unfold legendCmds
        rw [if_pos hcond]
      simp only [List.mem_append]
      left
      right
      rw [hleg]
      simp

/-- The example trajectory `[[0, 0], [1, 1], [2, 0]]`. -/
def exTraj : NPMat := { dim := 2, rows := [[0, 0], [1, 1], [2, 0]] }

/-- The example call: one trajectory, one point `[2, 2]`, default colors and
coloring, both label lists `None`. -/
def exArgs : PlotArgs :=
  { list_trajs := [exTraj], list_points := [[2, 2]],
    traj_labels := none, point_labels := none }

/-- Witness for `plot_completes`: the concrete example call does not raise,
ends with the equal-aspect command, and renders no legend (its label lists
are `None`). -/
theorem plot_completes_witness :
    wellFormedArgs exArgs = true ∧
      ∃ cs, plot_trajs_and_points specBearings exArgs = (cs, none) ∧
        cs.getLast? = some (Cmd.setAspect "equal" "box") ∧
        ((Cmd.legendBelow 0 (-(1/2)) "upper left" 2) ∈ cs ↔
          (exArgs.traj_labels ≠ none ∨ exArgs.point_labels ≠ none)) :=
  ⟨by decide, plot_completes specBearings exArgs (by decide)⟩

/-- When the trajectory colors have run out, the loop iteration raises the
`IndexError` at once (the color lookup is the first indexing of the
iteration). -/
theorem drawTrajStep_overflow {genB : List (List ℚ) → List (ℚ × ℚ)}
    {a : PlotArgs} {i : Nat} (t : NPMat) (h : a.traj_colors.length ≤ i) :
    drawTrajStep genB a i t = Except.error indexErrMsg := by
  unfold drawTrajStep
  have hc : pyIdx a.traj_colors i = Except.error indexErrMsg := by
    unfold pyIdx
    rw [List.get?_eq_none.mpr h]
  rw [hc]

/-- A trajectory loop holding more trajectories than colors, whose lookups
are fine up to the number of colors, fails with the `IndexError` when the
colors run out. -/
theorem drawTrajsFrom_overflow {genB : List (List ℚ) → List (ℚ × ℚ)}
    {a : PlotArgs} (hok : trajLookupsOk a a.traj_colors.length = true) :
    ∀ (ts : List NPMat) (i : Nat) (acc : List Cmd),
      i ≤ a.traj_colors.length → a.traj_colors.length < i + ts.length →
      ∃ cs, drawTrajsFrom genB a i ts acc = (cs, some indexErrMsg) := by
  intro ts
  induction ts with
  | nil =>
    intro i acc hi hlt
    simp at hlt
    omega
  | cons t ts ih =>
    intro i acc hi hlt
    rcases Nat.lt_or_ge i a.traj_colors.length with hilt | hige
    · obtain ⟨cs0, hs, _⟩ := drawTrajStep_ok genB a.traj_colors.length i t hok hilt
      obtain ⟨cs1, hrec⟩ := ih (i + 1) (acc ++ cs0) hilt (by simp at hlt ⊢; omega)
      refine ⟨cs1, ?_⟩
      unfold drawTrajsFrom
      rw [hs]
      dsimp only
      exact hrec
    · refine ⟨acc, ?_⟩
      unfold drawTrajsFrom
      rw [drawTrajStep_overflow t hige]

/-- C10: with default coloring on and more trajectories than trajectory
colors (points and their labels otherwise in order, and the trajectory
label/alpha lists covering at least the supplied colors), every assertion
passes, yet the call still fails with the out-of-range `IndexError` inside
the drawing loop — the default-coloring exemption substitutes no default
color, it only disarms the assertion. -/
theorem plot_default_coloring_overflow (genB : List (List ℚ) → List (ℚ × ℚ))
    (a : PlotArgs)
    (hdef : a.default_coloring = true)
    (hover : a.traj_colors.length < a.list_trajs.length)
    (hok : trajLookupsOk a a.traj_colors.length = true)
    (hpts : a.list_points.length ≤ a.point_colors.length)
    (hpl : labelsLenOk a.list_points.length a.point_labels = true) :
    assertsFail a = none ∧
      ∃ cs, plot_trajs_and_points genB a = (cs, some indexErrMsg) := by
  have hA : assertsFail a = none := by
    unfold assertsFail
    rw [if_pos (Or.inr hdef), if_pos hpts, if_pos (Or.inr hdef), if_pos hpl]
  refine ⟨hA, ?_⟩
  obtain ⟨cs, hT⟩ :=
    drawTrajsFrom_overflow hok a.list_trajs 0 [] (Nat.zero_le _) (by omega)
  refine ⟨cs, ?_⟩
  unfold plot_trajs_and_points
  rw [hA]
  dsimp only
  rw [hT]

/-- Three trajectories against the two default colors, with default
coloring on. -/
def overflowArgs : PlotArgs :=
  { list_trajs := [exTraj, exTraj, exTraj], list_points := [],
    point_labels := none }

/-- Witness for `plot_default_coloring_overflow`: three trajectories, two
default colors, default coloring on — the asserts pass and the call dies on
the `IndexError`. -/
theorem plot_default_coloring_overflow_witness :
    overflowArgs.default_coloring = true ∧
      overflowArgs.traj_colors.length < overflowArgs.list_trajs.length ∧
      trajLookupsOk overflowArgs overflowArgs.traj_colors.length = true ∧
      overflowArgs.list_points.length ≤ overflowArgs.point_colors.length ∧
      labelsLenOk overflowArgs.list_points.length overflowArgs.point_labels = true ∧
      (assertsFail overflowArgs = none ∧
        ∃ cs, plot_trajs_and_points specBearings overflowArgs =
          (cs, some indexErrMsg)) :=
  ⟨rfl, by decide, by decide, by decide, rfl,
    plot_default_coloring_overflow specBearings overflowArgs rfl (by decide)
      (by decide) (by decide) rfl⟩
